import Mathlib

/-!
Shallow embedding of `src/assets/bugfree_approval_program.py`, a PyTeal
stateful smart contract (an approval program).  The PyTeal expression tree
built by `buggy_program()` is embedded as a pure Lean function
`program : GlobalState → Invocation → Outcome`.

Modelling decisions:

* Identity handles (addresses) are modelled as `Nat`; the ledger treats
  them as atoms and the program only compares them for equality.
* The counter and transaction amounts are modelled as `Int`.  The ledger
  stores integers in a fixed-width non-negative encoding and the runtime
  faults when an operation would produce a negative value; this negative
  boundary is modelled explicitly (`tealSub`), since it is the boundary
  the program's guard is about.  The upper 64-bit bound of the encoding
  is outside the data model the claims quantify over (the counter ranges
  over `[0, +inf)`) and is not modelled.
* `App.globalGet` / `App.globalPut` on the two keys `"owner"` and
  `"counter"` become the two fields of `GlobalState`.
* `Txn` is the transaction currently being evaluated; `Gtxn[i]` is entry
  `i` of the atomic transaction group the invocation was submitted in.
  An `Invocation` therefore carries the current transaction together
  with the full group.  The group always contains the current
  transaction, so it is non-empty; `Gtxn[0]` is embedded with
  `List.headD` using the current transaction as the (unreachable)
  default.
* `Return(e)` with a non-zero value approves the invocation, zero
  rejects it; a failed `Assert` rejects; a runtime arithmetic fault
  aborts.  In every non-accepting outcome the ledger rolls the state
  back, which `applyInv` makes explicit.
-/

/-- Transaction type enumeration (`TxnType` in PyTeal): `Payment` is a
value transfer, `ApplicationCall` an application invocation. -/
inductive TxnType where
  | Payment
  | KeyRegistration
  | AssetConfig
  | AssetTransfer
  | AssetFreeze
  | ApplicationCall
  deriving DecidableEq, Repr

/-- Completion intents (`OnComplete` in PyTeal). -/
inductive OnComplete where
  | NoOp
  | OptIn
  | CloseOut
  | ClearState
  | UpdateApplication
  | DeleteApplication
  deriving DecidableEq, Repr

/-- One transaction descriptor: the fields of `Txn` / `Gtxn[i]` that the
program reads.  Fields irrelevant to a transaction's type are simply
ignored by the program, as in TEAL where they read as zero. -/
structure Txn where
  type_enum : TxnType
  sender : Nat
  receiver : Nat
  amount : Int
  application_id : Nat
  on_completion : OnComplete
  deriving DecidableEq, Repr

/-- One call into the approval program: the current transaction (`Txn`)
and the atomic group it belongs to (`Gtxn`). -/
structure Invocation where
  txn : Txn
  group : List Txn
  deriving DecidableEq, Repr

/-- The two persisted global slots, keys `"owner"` and `"counter"`. -/
structure GlobalState where
  owner : Nat
  counter : Int
  deriving DecidableEq, Repr

/-- Global state before any key has been written: `App.globalGet` on an
unset key yields zero. -/
def uninitState : GlobalState := { owner := 0, counter := 0 }

/-- Result of evaluating the approval program on one invocation:
approved (with the written state), rejected (`Return 0` or a failed
`Assert`), or aborted by a runtime arithmetic fault. -/
inductive Outcome where
  | accept (st : GlobalState)
  | reject
  | fault
  deriving DecidableEq, Repr

/-- TEAL subtraction: ledger integers are unsigned, so `a - b` faults
(aborts the invocation) when the result would be negative. -/
def tealSub (a b : Int) : Option Int :=
  if b ≤ a then some (a - b) else none

/-- `init_contract`: `globalPut owner (Txn.sender)`, `globalPut counter 0`,
`Return 1`.  It reads no prior state. -/
def init_contract (inv : Invocation) : Outcome :=
  Outcome.accept { owner := inv.txn.sender, counter := 0 }

/-- `is_owner`: `Txn.sender() == App.globalGet(var_owner)`. -/
def is_owner (st : GlobalState) (inv : Invocation) : Bool :=
  inv.txn.sender == st.owner

/-- `payment_txn = Gtxn[0]`.  The current transaction is always a member
of its group, so the group is non-empty and the default is never used. -/
def payment_txn (inv : Invocation) : Txn :=
  inv.group.headD inv.txn

/-- `app_txn = Txn` (the source comments that it sits at group index 1,
but reads it directly as `Txn`, without consulting the group). -/
def app_txn (inv : Invocation) : Txn :=
  inv.txn

/-- `payment_check`: `Gtxn[0].type_enum() == TxnType.Payment`. -/
def payment_check (inv : Invocation) : Bool :=
  (payment_txn inv).type_enum == TxnType.Payment

/-- `payment_receiver_check`: `Gtxn[0].receiver() == globalGet owner`. -/
def payment_receiver_check (st : GlobalState) (inv : Invocation) : Bool :=
  (payment_txn inv).receiver == st.owner

/-- `app_check`: `Txn.type_enum() == TxnType.ApplicationCall`. -/
def app_check (inv : Invocation) : Bool :=
  (app_txn inv).type_enum == TxnType.ApplicationCall

/-- `group_checks`: conjunction of the three checks above. -/
def group_checks (st : GlobalState) (inv : Invocation) : Bool :=
  payment_check inv && payment_receiver_check st inv && app_check inv

/-- `increment_counter`: `Assert(group_checks)`, then if the payment
amount is at least 10 Algos (`10 * 1000000` micro-Algos) increment the
counter; otherwise, if the counter is positive, decrement it (the
subtraction is the unsigned ledger subtraction, which would abort if it
went negative); otherwise fall through with no write.  Finally
`Return 1`. -/
def increment_counter (st : GlobalState) (inv : Invocation) : Outcome :=
  if group_checks st inv then
    if (payment_txn inv).amount ≥ 10 * 1000000 then
      Outcome.accept { st with counter := st.counter + 1 }
    else if st.counter > 0 then
      match tealSub st.counter 1 with
      | some c => Outcome.accept { st with counter := c }
      | none => Outcome.fault
    else
      Outcome.accept st
  else
    Outcome.reject

/-- `Return(b)` for a boolean expression: approve iff `b`, no state
written. -/
def return_bool (st : GlobalState) (b : Bool) : Outcome :=
  if b then Outcome.accept st else Outcome.reject

/-- The `Cond` decision list of `buggy_program()`: conditions are tried
in order and the first match runs; if no condition matches, `Cond`
errs, rejecting the invocation. -/
def program (st : GlobalState) (inv : Invocation) : Outcome :=
  if inv.txn.application_id = 0 then
    init_contract inv
  else if inv.txn.on_completion = OnComplete.DeleteApplication then
    return_bool st (is_owner st inv)
  else if inv.txn.on_completion = OnComplete.UpdateApplication then
    return_bool st (is_owner st inv)
  else if inv.txn.on_completion = OnComplete.OptIn then
    Outcome.accept st
  else if inv.txn.on_completion = OnComplete.CloseOut then
    Outcome.accept st
  else if inv.txn.on_completion = OnComplete.NoOp then
    increment_counter st inv
  else
    Outcome.reject

/-- State persisted after one invocation: the written state when the
program accepts, and the rolled-back previous state otherwise. -/
def applyInv (st : GlobalState) (inv : Invocation) : GlobalState :=
  match program st inv with
  | Outcome.accept st' => st'
  | _ => st

/-- States reachable from the initial `Create` transition (first-ever
call, `application_id` unset) by any sequence of accepted invocations. -/
inductive Reachable : GlobalState → Prop where
  | create (inv : Invocation) (st : GlobalState) :
      inv.txn.application_id = 0 → program uninitState inv = Outcome.accept st →
      Reachable st
  | step (st st' : GlobalState) (inv : Invocation) :
      Reachable st → program st inv = Outcome.accept st' → Reachable st'

/-! ### Helper lemmas shared by several claims -/

/-- Shape of every accepting run of `program`: the create branch writes
`owner := sender, counter := 0` (and only fires when `application_id`
is 0); every other accepting branch leaves the state unchanged or
changes only the counter, by `+1`, or by `-1` under the `counter > 0`
guard. -/
theorem program_accept_cases (st st' : GlobalState) (inv : Invocation)
    (hacc : program st inv = Outcome.accept st') :
    (inv.txn.application_id = 0 ∧ st' = { owner := inv.txn.sender, counter := 0 }) ∨
    st' = st ∨
    st' = { st with counter := st.counter + 1 } ∨
    (0 < st.counter ∧ st' = { st with counter := st.counter - 1 }) := by
  unfold program at hacc
  split at hacc
  · rename_i hid
    unfold init_contract at hacc
    cases hacc
    exact Or.inl ⟨hid, rfl⟩
  split at hacc
  · unfold return_bool at hacc
    split at hacc
    · cases hacc; exact Or.inr (Or.inl rfl)
    · cases hacc
  split at hacc
  · unfold return_bool at hacc
    split at hacc
    · cases hacc; exact Or.inr (Or.inl rfl)
    · cases hacc
  split at hacc
  · cases hacc; exact Or.inr (Or.inl rfl)
  split at hacc
  · cases hacc; exact Or.inr (Or.inl rfl)
  split at hacc
  · unfold increment_counter at hacc
    split at hacc
    · split at hacc
      · cases hacc; exact Or.inr (Or.inr (Or.inl rfl))
      · split at hacc
        · rename_i hpos
          have hsub : tealSub st.counter 1 = some (st.counter - 1) := by
            unfold tealSub
            rw [if_pos (by omega)]
          rw [hsub] at hacc
          cases hacc
          exact Or.inr (Or.inr (Or.inr ⟨hpos, rfl⟩))
        · cases hacc; exact Or.inr (Or.inl rfl)
    · cases hacc
  · cases hacc

/-! ### Concrete transactions used by witnesses and counterexamples -/

/-- A payment transaction with the given sender, receiver and amount. -/
def mkPay (s r : Nat) (amt : Int) : Txn :=
  { type_enum := TxnType.Payment, sender := s, receiver := r, amount := amt,
    application_id := 0, on_completion := OnComplete.NoOp }

/-- An application-call transaction with the given sender, application
id and completion intent. -/
def mkApp (s : Nat) (appId : Nat) (oc : OnComplete) : Txn :=
  { type_enum := TxnType.ApplicationCall, sender := s, receiver := 0, amount := 0,
    application_id := appId, on_completion := oc }

/-! ### Claims -/

/-- C1: for every state reachable from the initial Create transition by
any sequence of accepted invocations, the counter is at least 0; by the
`step` case this also says that no accepted transition stores a
negative counter value. -/
theorem reachable_counter_nonneg (st : GlobalState) (h : Reachable st) :
    0 ≤ st.counter := by
  induction h with
  | create inv st _ hacc =>
    rcases program_accept_cases uninitState st inv hacc with ⟨_, h⟩ | h | h | ⟨hpos, h⟩ <;>
      simp_all [uninitState]
  | step st st' inv _ hacc ih =>
    rcases program_accept_cases st st' inv hacc with ⟨_, h⟩ | h | h | ⟨hpos, h⟩ <;>
      simp [h] <;> omega

/-- Witness for C1 at the state written by a concrete Create call. -/
theorem reachable_counter_nonneg_witness :
    0 ≤ (GlobalState.mk 5 0).counter :=
  reachable_counter_nonneg (GlobalState.mk 5 0)
    (Reachable.create { txn := mkApp 5 0 OnComplete.NoOp, group := [mkApp 5 0 OnComplete.NoOp] }
      (GlobalState.mk 5 0) rfl (by decide))

/-- C5: once initialized (`application_id` set), a Delete or Update
invocation is accepted iff the caller is the stored owner, and the
state persisted afterwards is unchanged whether it accepts or
rejects. -/
theorem delete_update_owner_gated (st : GlobalState) (inv : Invocation)
    (hid : inv.txn.application_id ≠ 0)
    (hoc : inv.txn.on_completion = OnComplete.DeleteApplication ∨
      inv.txn.on_completion = OnComplete.UpdateApplication) :
    program st inv = (if inv.txn.sender = st.owner then Outcome.accept st else Outcome.reject) ∧
      applyInv st inv = st := by
  have hprog : program st inv =
      (if inv.txn.sender = st.owner then Outcome.accept st else Outcome.reject) := by
    rcases hoc with h | h <;>
    · simp only [program, hid, if_neg, h, if_pos, return_bool, is_owner]
      by_cases hs : inv.txn.sender = st.owner <;> simp [hs]
  refine ⟨hprog, ?_⟩
  unfold applyInv
  rw [hprog]
  by_cases hs : inv.txn.sender = st.owner <;> simp [hs]

/-- Witness for C5: owner 3 deleting their own instance. -/
theorem delete_update_owner_gated_witness :
    program (GlobalState.mk 3 7) { txn := mkApp 3 1 OnComplete.DeleteApplication, group := [] } =
      (if (mkApp 3 1 OnComplete.DeleteApplication).sender = 3 then
        Outcome.accept (GlobalState.mk 3 7) else Outcome.reject) ∧
      applyInv (GlobalState.mk 3 7) { txn := mkApp 3 1 OnComplete.DeleteApplication, group := [] } =
        GlobalState.mk 3 7 :=
  delete_update_owner_gated (GlobalState.mk 3 7)
    { txn := mkApp 3 1 OnComplete.DeleteApplication, group := [] }
    (by decide) (Or.inl rfl)

/-- C6: any invocation whose `application_id` is 0 (the first-ever
call), whatever its completion intent, takes the init branch: the state
becomes `owner := sender, counter := 0` — independently of the prior
state, which is never read — and the verdict is accept. -/
theorem create_initializes (st : GlobalState) (inv : Invocation)
    (hid : inv.txn.application_id = 0) :
    program st inv = Outcome.accept { owner := inv.txn.sender, counter := 0 } := by
  simp [program, hid, init_contract]

/-- Witness for C6: a first call with intent Update still initializes. -/
theorem create_initializes_witness :
    program (GlobalState.mk 3 7) { txn := mkApp 9 0 OnComplete.UpdateApplication, group := [] } =
      Outcome.accept { owner := 9, counter := 0 } :=
  create_initializes (GlobalState.mk 3 7)
    { txn := mkApp 9 0 OnComplete.UpdateApplication, group := [] } rfl

/-- C7: a NoOp invocation (on an initialized instance) whose group
passes `group_checks` and whose first group entry carries an amount of
at least `10 * 1000000` is accepted with the counter incremented by
exactly 1. -/
theorem noop_increment_high_amount (st : GlobalState) (inv : Invocation)
    (hid : inv.txn.application_id ≠ 0)
    (hoc : inv.txn.on_completion = OnComplete.NoOp)
    (hg : group_checks st inv = true)
    (hamt : (payment_txn inv).amount ≥ 10 * 1000000) :
    program st inv = Outcome.accept { st with counter := st.counter + 1 } := by
  simp [program, hid, hoc, increment_counter, hg, hamt]
  intro h
  exact absurd h (by omega)

/-- Witness for C7: counter 5 becomes 6 on a 10-Algo payment to the
owner. -/
theorem noop_increment_high_amount_witness :
    program (GlobalState.mk 3 5)
      { txn := mkApp 4 1 OnComplete.NoOp, group := [mkPay 4 3 10000000, mkApp 4 1 OnComplete.NoOp] } =
      Outcome.accept { owner := 3, counter := 6 } :=
  noop_increment_high_amount (GlobalState.mk 3 5)
    { txn := mkApp 4 1 OnComplete.NoOp, group := [mkPay 4 3 10000000, mkApp 4 1 OnComplete.NoOp] }
    (by decide) rfl (by decide) (by decide)

/-- C8: a NoOp invocation (on an initialized instance) whose group
passes `group_checks`, with first-entry amount below `10 * 1000000` and
a positive counter, is accepted with the counter decremented by exactly
1; the guard makes the unsigned subtraction safe. -/
theorem noop_decrement_positive_counter (st : GlobalState) (inv : Invocation)
    (hid : inv.txn.application_id ≠ 0)
    (hoc : inv.txn.on_completion = OnComplete.NoOp)
    (hg : group_checks st inv = true)
    (hamt : (payment_txn inv).amount < 10 * 1000000)
    (hc : 0 < st.counter) :
    program st inv = Outcome.accept { st with counter := st.counter - 1 } := by
  have hsub : tealSub st.counter 1 = some (st.counter - 1) := by
    unfold tealSub
    rw [if_pos (by omega)]
  simp [program, hid, hoc, increment_counter, hg, not_le.mpr hamt, hc, hsub]
  intro h
  exact absurd h (by omega)

/-- Witness for C8: counter 3 becomes 2 on a 1-Algo payment to the
owner. -/
theorem noop_decrement_positive_counter_witness :
    program (GlobalState.mk 3 3)
      { txn := mkApp 4 1 OnComplete.NoOp, group := [mkPay 4 3 1000000, mkApp 4 1 OnComplete.NoOp] } =
      Outcome.accept { owner := 3, counter := 2 } :=
  noop_decrement_positive_counter (GlobalState.mk 3 3)
    { txn := mkApp 4 1 OnComplete.NoOp, group := [mkPay 4 3 1000000, mkApp 4 1 OnComplete.NoOp] }
    (by decide) rfl (by decide) (by decide) (by decide)

/-- C3: a NoOp invocation (on an initialized instance) whose group
passes `group_checks`, with first-entry amount below `10 * 1000000` and
the counter already 0, performs no update and is still accepted: the
persisted state is exactly the previous one. -/
theorem noop_zero_counter_low_amount_accept_unchanged (st : GlobalState) (inv : Invocation)
    (hid : inv.txn.application_id ≠ 0)
    (hoc : inv.txn.on_completion = OnComplete.NoOp)
    (hg : group_checks st inv = true)
    (hamt : (payment_txn inv).amount < 10 * 1000000)
    (hc : st.counter = 0) :
    program st inv = Outcome.accept st := by
  simp [program, hid, hoc, increment_counter, hg, not_le.mpr hamt, hc]
  intro h
  exact absurd h (by omega)

/-- Witness for C3: counter 0, amount 999999, verdict accept with the
counter still 0. -/
theorem noop_zero_counter_low_amount_accept_unchanged_witness :
    program (GlobalState.mk 3 0)
      { txn := mkApp 4 1 OnComplete.NoOp, group := [mkPay 4 3 999999, mkApp 4 1 OnComplete.NoOp] } =
      Outcome.accept (GlobalState.mk 3 0) :=
  noop_zero_counter_low_amount_accept_unchanged (GlobalState.mk 3 0)
    { txn := mkApp 4 1 OnComplete.NoOp, group := [mkPay 4 3 999999, mkApp 4 1 OnComplete.NoOp] }
    (by decide) rfl (by decide) (by decide) rfl

/-- C9: for a NoOp invocation on an initialized instance whose 2-entry
group has the current invocation at index 1 (the shape the data model
prescribes), falsity of any clause of the conjunctive group
precondition — `group[0]` not a Payment, `group[0].receiver` not the
stored owner, or `group[1]` not an ApplicationCall — makes the
invocation reject, and the persisted state is unchanged, regardless of
the amount. -/
theorem noop_group_check_failure_rejects (st : GlobalState) (inv : Invocation) (t0 t1 : Txn)
    (hgrp : inv.group = [t0, t1]) (ht1 : t1 = inv.txn)
    (hid : inv.txn.application_id ≠ 0)
    (hoc : inv.txn.on_completion = OnComplete.NoOp)
    (hfail : t0.type_enum ≠ TxnType.Payment ∨ t0.receiver ≠ st.owner ∨
      t1.type_enum ≠ TxnType.ApplicationCall) :
    program st inv = Outcome.reject ∧ applyInv st inv = st := by
  subst ht1
  have hg : group_checks st inv = false := by
    rcases hfail with h | h | h <;>
      simp [group_checks, payment_check, payment_receiver_check, app_check,
        payment_txn, app_txn, hgrp, h]
  have hprog : program st inv = Outcome.reject := by
    simp [program, hid, hoc, increment_counter, hg]
  refine ⟨hprog, ?_⟩
  unfold applyInv
  rw [hprog]

/-- Witness for C9: payment receiver 9 differs from owner 3, a 10-Algo
amount notwithstanding. -/
theorem noop_group_check_failure_rejects_witness :
    program (GlobalState.mk 3 2)
      { txn := mkApp 4 1 OnComplete.NoOp, group := [mkPay 4 9 10000000, mkApp 4 1 OnComplete.NoOp] } =
      Outcome.reject ∧
    applyInv (GlobalState.mk 3 2)
      { txn := mkApp 4 1 OnComplete.NoOp, group := [mkPay 4 9 10000000, mkApp 4 1 OnComplete.NoOp] } =
      GlobalState.mk 3 2 :=
  noop_group_check_failure_rejects (GlobalState.mk 3 2)
    { txn := mkApp 4 1 OnComplete.NoOp, group := [mkPay 4 9 10000000, mkApp 4 1 OnComplete.NoOp] }
    (mkPay 4 9 10000000) (mkApp 4 1 OnComplete.NoOp)
    rfl rfl (by decide) rfl (Or.inr (Or.inl (by decide)))

/-- C10: once `application_id` is set, no invocation — any completion
intent, accepted or rejected — changes the stored owner; only the
create branch (`application_id` unset) writes it. -/
theorem owner_frame (st : GlobalState) (inv : Invocation)
    (hid : inv.txn.application_id ≠ 0) :
    (applyInv st inv).owner = st.owner := by
  unfold applyInv
  rcases hout : program st inv with st' | _ | _
  · rcases program_accept_cases st st' inv hout with ⟨h, _⟩ | h | h | ⟨_, h⟩
    · exact absurd h hid
    all_goals simp [h]
  all_goals rfl

/-- Witness for C10: an accepted Update by the owner leaves the owner
field at 3. -/
theorem owner_frame_witness :
    (applyInv (GlobalState.mk 3 7)
      { txn := mkApp 3 1 OnComplete.UpdateApplication, group := [] }).owner = 3 :=
  owner_frame (GlobalState.mk 3 7)
    { txn := mkApp 3 1 OnComplete.UpdateApplication, group := [] } (by decide)

/-- An application call with sender 8 against application 1, intent
NoOp. -/
def cexApp : Txn := mkApp 8 1 OnComplete.NoOp

/-- A 1-Algo payment from 8 to the owner 7. -/
def cexPayLow : Txn := mkPay 8 7 1000000

/-- A valid 2-entry NoOp group: the low payment to the owner followed
by the application call itself. -/
def cexInv2 : Invocation := { txn := cexApp, group := [cexPayLow, cexApp] }

/-- C2 counterexample: with owner 7, counter 0 and a valid 2-entry group
paying 1_000_000 to the owner, the program does NOT abort with an
arithmetic fault — the `counter > 0` guard skips the subtraction and the
invocation is accepted with the counter still 0, contrary to the
claim. -/
theorem zero_counter_low_amount_no_fault_cex :
    cexInv2.group.length = 2 ∧
    group_checks (GlobalState.mk 7 0) cexInv2 = true ∧
    (payment_txn cexInv2).amount = 1000000 ∧
    program (GlobalState.mk 7 0) cexInv2 ≠ Outcome.fault ∧
    program (GlobalState.mk 7 0) cexInv2 = Outcome.accept (GlobalState.mk 7 0) := by
  decide

/-- C2 as amended: for a NoOp invocation on an initialized instance
with a valid 2-entry group, counter 0 and first-entry amount 1_000_000,
the guarded decrement is skipped — no subtraction is attempted, so no
arithmetic fault occurs — and the invocation is accepted with the state
unchanged. -/
theorem zero_counter_low_amount_accepts (st : GlobalState) (inv : Invocation) (t0 t1 : Txn)
    (hgrp : inv.group = [t0, t1])
    (hid : inv.txn.application_id ≠ 0)
    (hoc : inv.txn.on_completion = OnComplete.NoOp)
    (hg : group_checks st inv = true)
    (hc : st.counter = 0)
    (hamt : t0.amount = 1000000) :
    program st inv = Outcome.accept st := by
  have hpt : payment_txn inv = t0 := by
    simp [payment_txn, hgrp]
  have hlt : ¬ (payment_txn inv).amount ≥ 10 * 1000000 := by
    rw [hpt, hamt]
    omega
  simp [program, hid, hoc, increment_counter, hg, hlt, hc]
  intro h
  rw [hpt, hamt] at h
  exact absurd h (by omega)

/-- Witness for the amended C2 at the counterexample input. -/
theorem zero_counter_low_amount_accepts_witness :
    program (GlobalState.mk 7 0) cexInv2 = Outcome.accept (GlobalState.mk 7 0) :=
  zero_counter_low_amount_accepts (GlobalState.mk 7 0) cexInv2 cexPayLow cexApp
    rfl (by decide) rfl (by decide) rfl rfl

/-- A 10-Algo payment from 8 to the owner 7. -/
def cexPayHigh : Txn := mkPay 8 7 10000000

/-- A spare 5 micro-Algo payment from 8 to 9, padding the group to 3
entries. -/
def cexExtra : Txn := mkPay 8 9 5

/-- A 3-entry group whose first entry pays the owner and whose
application call is the current transaction: `group_checks` passes even
though the group does not contain exactly 2 entries. -/
def cexInv3 : Invocation := { txn := cexApp, group := [cexPayHigh, cexExtra, cexApp] }

/-- C4 counterexample: a NoOp invocation whose group has 3 entries is
accepted — with a state mutation, counter 0 to 1 — because the program
never checks the group size, contrary to the claim that such an
invocation fails with no state mutation. -/
theorem group_size_unchecked_cex :
    cexInv3.txn.on_completion = OnComplete.NoOp ∧
    cexInv3.txn.application_id ≠ 0 ∧
    cexInv3.group.length ≠ 2 ∧
    program (GlobalState.mk 7 0) cexInv3 = Outcome.accept (GlobalState.mk 7 1) ∧
    applyInv (GlobalState.mk 7 0) cexInv3 ≠ GlobalState.mk 7 0 := by
  decide

/-- C4 as amended: the group size is never checked; a NoOp invocation
on an initialized instance is rejected exactly when `group_checks`
fails (first group entry not a Payment to the stored owner, or the
current transaction not an ApplicationCall), so a group without exactly
2 entries may still be accepted. -/
theorem noop_reject_iff_group_checks_fail (st : GlobalState) (inv : Invocation)
    (hid : inv.txn.application_id ≠ 0)
    (hoc : inv.txn.on_completion = OnComplete.NoOp) :
    program st inv = Outcome.reject ↔ group_checks st inv = false := by
  have hprog : program st inv = increment_counter st inv := by
    simp [program, hid, hoc]
  rw [hprog]
  unfold increment_counter
  cases hg : group_checks st inv
  · simp
  · simp only [if_pos]
    constructor
    · intro h
      split at h
      · cases h
      · split at h
        · rename_i hpos
          have hsub : tealSub st.counter 1 = some (st.counter - 1) := by
            unfold tealSub
            rw [if_pos (by omega)]
          rw [hsub] at h
          cases h
        · cases h
    · intro h
      cases h

/-- Witness for the amended C4: a group whose first entry is the
application call itself fails `payment_check`, so the NoOp is
rejected. -/
theorem noop_reject_iff_group_checks_fail_witness :
    program (GlobalState.mk 7 0) { txn := cexApp, group := [cexApp, cexApp] } =
      Outcome.reject ↔
    group_checks (GlobalState.mk 7 0) { txn := cexApp, group := [cexApp, cexApp] } = false :=
  noop_reject_iff_group_checks_fail (GlobalState.mk 7 0)
    { txn := cexApp, group := [cexApp, cexApp] } (by decide) rfl
